import Mathlib

/-!
# Verification of the anki_generator resume / rate-limit / processing pipeline

Shallow embedding of the parts of the repository the specification talks
about:

* `src/llm.py` — `RateLimiter` (token bucket) and `GroqLLMService`
  (`process_words`, `_parse_response`, `_create_empty_word_data`);
* `src/word_provider.py` — `WordProvider` (input reading, resume scan,
  word filtering, file mode);
* `src/word_processor.py` — `_sanitize_filename`, `_handle_groq_error`,
  `_generate_text`, `process_word`;
* `src/audio_generator.py` — `GTTSAudioService._sanitize_filename`;
* `src/app.py` — `AnkiGeneratorApp._run_processing_loop`;
* `src/processor.py` — `AnkiCardProcessor.process_words` with
  `ProcessingStats` from `src/structures.py`.

Python floats are modelled as rationals, wall-clock time as an explicit
rational parameter, external API calls as oracle parameters, and Python
exceptions as `Except` values.
-/

/-! ## Python character / string semantics helpers -/

/-- Python `str.isspace` on a single code point, as a predicate on the code
point value: ASCII whitespace (TAB..CR), the separator controls 0x1C..0x1F,
space, NEL (0x85), NBSP (0xA0) and the Unicode space characters. -/
def pyIsSpaceNat (n : Nat) : Bool :=
  (9 ≤ n && n ≤ 13) || (28 ≤ n && n ≤ 31) || n = 32 || n = 0x85 || n = 0xA0 ||
  n = 0x1680 || (0x2000 ≤ n && n ≤ 0x200A) || n = 0x2028 || n = 0x2029 ||
  n = 0x202F || n = 0x205F || n = 0x3000

/-- Python `str.isalnum` on a single code point value, restricted to the
character ranges this repository's inputs live in: ASCII digits and letters,
the stray Latin-1 letters (ª µ º), and the Latin-1 / Latin Extended-A /
Latin Extended-B letters 0xC0..0x24F minus the two operators × (0xD7) and
÷ (0xF7).  All German letters (äöüÄÖÜß) fall in the last range, exactly as
`'ä'.isalnum()` is `True` in Python.  `_` (0x5F) and every whitespace code
point are not alphanumeric, as in Python. -/
def pyIsAlnumNat (n : Nat) : Bool :=
  (48 ≤ n && n ≤ 57) || (65 ≤ n && n ≤ 90) || (97 ≤ n && n ≤ 122) ||
  n = 0xAA || n = 0xB5 || n = 0xBA ||
  (0xC0 ≤ n && n ≤ 0x24F && !(n = 0xD7) && !(n = 0xF7))

def pyIsSpace (c : Char) : Bool := pyIsSpaceNat c.toNat

def pyIsAlnum (c : Char) : Bool := pyIsAlnumNat c.toNat

/-- Python `str.strip()` on a character list: remove leading and trailing
whitespace. -/
def pyStripList (l : List Char) : List Char :=
  ((l.dropWhile pyIsSpace).reverse.dropWhile pyIsSpace).reverse

/-- Python `str.strip()`. -/
def pyStrip (s : String) : String := String.mk (pyStripList s.data)

/-- Python `needle in haystack` (substring containment) on character lists. -/
def containsSub (needle : List Char) : List Char → Bool
  | [] => needle.isEmpty
  | c :: rest => needle.isPrefixOf (c :: rest) || containsSub needle rest

/-! ## `RateLimiter` (src/llm.py lines 16-52)

The Python class keeps `capacity`, `tokens` (a float), `refill_rate`
(tokens per second) and `last_refill_time` (a `time.time()` value).  We
model floats/timestamps as rationals and pass the current wall-clock time
to each call explicitly; `time.sleep(d)` followed by `time.time()` is
modelled by a `wake` parameter, constrained in the theorems to be at least
the computed wait deadline (sleep never wakes early). -/

structure RateLimiter where
  capacity : ℚ
  tokens : ℚ
  refill_rate : ℚ
  last_refill_time : ℚ
deriving DecidableEq, Repr

namespace RateLimiter

/-- `__init__(capacity, refill_rate)` at wall-clock time `now`:
the bucket starts full. -/
def init (capacity refill_rate now : ℚ) : RateLimiter :=
  { capacity := capacity, tokens := capacity, refill_rate := refill_rate,
    last_refill_time := now }

/-- `_refill` (lines 44-52): lazily add `elapsed * refill_rate` tokens,
capped at `capacity`; the update (including the timestamp) only happens
when the computed amount is positive. -/
def refill (st : RateLimiter) (now : ℚ) : RateLimiter :=
  let elapsed := now - st.last_refill_time
  let new_tokens := elapsed * st.refill_rate
  if 0 < new_tokens then
    { st with tokens := min st.capacity (st.tokens + new_tokens),
              last_refill_time := now }
  else st

/-- The wait computed on the blocking path (line 37):
`(tokens_requested - tokens_available) / refill_rate`. -/
def waitTime (st : RateLimiter) (n : ℚ) : ℚ := (n - st.tokens) / st.refill_rate

/-- `consume(tokens, block)` (lines 25-42) called at wall-clock time `now`;
`wake` is the time observed by the second `_refill` after `time.sleep`
on the blocking path. Returns the Python return value and the new state. -/
def consume (st : RateLimiter) (n : ℚ) (block : Bool) (now wake : ℚ) :
    Bool × RateLimiter :=
  let st1 := st.refill now
  if n ≤ st1.tokens then
    (true, { st1 with tokens := st1.tokens - n })
  else if !block then
    (false, st1)
  else
    let st2 := st1.refill wake
    (true, { st2 with tokens := st2.tokens - n })

/-- One recorded `consume` call: the argument pair plus the wall-clock
times at which the call starts and at which the post-sleep refill reads
the clock. -/
structure Call where
  n : ℚ
  block : Bool
  now : ℚ
  wake : ℚ

/-- Run a sequence of `consume` calls, threading the bucket state. -/
def runCalls (st : RateLimiter) : List Call → RateLimiter
  | [] => st
  | c :: cs => runCalls (st.consume c.n c.block c.now c.wake).2 cs

/-- Well-formed call sequences: every call asks for `0 ≤ n ≤ capacity`,
the clock never runs backwards, and sleeping never wakes before the
computed deadline `now + waitTime`. -/
def WFCalls (st : RateLimiter) : List Call → Prop
  | [] => True
  | c :: cs =>
    0 ≤ c.n ∧ c.n ≤ st.capacity ∧ st.last_refill_time ≤ c.now ∧
    c.now + (st.refill c.now).waitTime c.n ≤ c.wake ∧
    WFCalls (st.consume c.n c.block c.now c.wake).2 cs

/-- The token-bucket invariant of the spec, together with the structural
facts (positive refill rate) under which the blocking path is meaningful. -/
def Inv (st : RateLimiter) : Prop :=
  0 ≤ st.tokens ∧ st.tokens ≤ st.capacity ∧ 0 < st.refill_rate

end RateLimiter

/-! ## `WordProvider` (src/word_provider.py)

The output file is modelled as `Option (List String)`: `none` is a missing
file; `some lines` an existing file whose iteration yields `lines`
(`st_size > 0` corresponds to `lines ≠ []`, since a file of positive size
yields at least one line).  The input file is modelled the same way. -/

/-- Lazy (non-greedy) group matching at a fixed start position: collect
characters until `closing` is a prefix of the remainder, as `(.*?)` does
before a literal tail; `.` does not match a newline, so a newline (or the
end of input) before `closing` fails this start position. -/
def scanGroup (closing : List Char) : List Char → Option (List Char)
  | [] => if closing.isPrefixOf ([] : List Char) then some [] else none
  | c :: rest =>
    if closing.isPrefixOf (c :: rest) then some []
    else if c = '\n' then none
    else (scanGroup closing rest).map (c :: ·)

/-- `re.search` for a pattern of the shape `opening(.*?)closing` (with the
group containing no newline): try each start position left to right; at a
position where `opening` occurs, lazily match the group up to `closing`;
on failure move one character right.  Returns the captured group of the
leftmost match.  Both patterns used in the source have a non-empty
`opening`. -/
def searchGroup (opening closing : List Char) : List Char → Option (List Char)
  | [] => none
  | c :: rest =>
    if opening.isPrefixOf (c :: rest) then
      match scanGroup closing ((c :: rest).drop opening.length) with
      | some g => some g
      | none => searchGroup opening closing rest
    else searchGroup opening closing rest

/-- The marker extraction applied to each output line
(word_provider.py lines 54-68): the sound tag `[sound:(.*?)\.mp3\]` is
tried first; the image tag `<img src="(.*?)\.png">` is the fallback. -/
def extractProcessedWord (line : String) : Option String :=
  match searchGroup "[sound:".data ".mp3]".data line.data with
  | some g => some (String.mk g)
  | none =>
    match searchGroup "<img src=\"".data ".png\">".data line.data with
    | some g => some (String.mk g)
    | none => none

/-- Python `set.add`: sets are modelled as duplicate-free lists; insertion
order is irrelevant to the membership tests the source performs. -/
def insertSet (s : List String) (w : String) : List String :=
  if w ∈ s then s else s ++ [w]

/-- The scan loop of `_determine_words_to_process` (lines 52-68): collect
the identifiers of all recognizable markers into `processed_words_set`. -/
def collectProcessedWords (lines : List String) : List String :=
  lines.foldl
    (fun s line =>
      match extractProcessedWord line with
      | some w => insertSet s w
      | none => s) []

/-- File modes the provider distinguishes: `'w'` and `'a'`. -/
inductive FileMode
  | write
  | append
deriving DecidableEq, Repr

/-- The resume scan of `_determine_words_to_process` (lines 45-84): an
existing, non-empty output file is scanned for markers; the mode is
append exactly when at least one identifier was found, and write
otherwise (missing file, empty file, or no recognizable markers). -/
def resumeScan (outputFile : Option (List String)) : List String × FileMode :=
  match outputFile with
  | none => ([], FileMode.write)
  | some lines =>
    if lines.isEmpty then ([], FileMode.write)
    else
      let s := collectProcessedWords lines
      (s, if s.isEmpty then FileMode.write else FileMode.append)

/-- `_determine_words_to_process` (lines 37-94) after the shuffle:
`shuffled` is `random.shuffle`'s output (constrained to permutations of
the input in the theorems); the result filters out exactly the words that
are members of the processed set (line 87). -/
def determineWordsToProcess (shuffled : List String)
    (outputFile : Option (List String)) : List String × FileMode :=
  let scan := resumeScan outputFile
  (shuffled.filter (fun w => !(scan.1.contains w)), scan.2)

/-- `get_file_mode` (lines 109-116): write when the output file is missing
or empty, append otherwise — the markers play no role here. -/
def getFileMode (outputFile : Option (List String)) : FileMode :=
  match outputFile with
  | none => FileMode.write
  | some lines => if lines.isEmpty then FileMode.write else FileMode.append

/-- Outcomes of `WordProvider` construction that abort it: the re-raised
`FileNotFoundError` (line 32), and `sys.exit(1)` — the `ValueError` raised
for an empty word list at line 27 is caught by the function's own generic
`except` handler at line 33, which exits. -/
inductive ReadAbort
  | fileNotFound
  | systemExit (code : Nat)
deriving DecidableEq, Repr

/-- `_read_input_words` (lines 19-35): strip every line, keep the
non-blank ones; a missing file re-raises `FileNotFoundError`, an empty
word list ends in `sys.exit(1)`. -/
def readInputWords (inputFile : Option (List String)) :
    Except ReadAbort (List String) :=
  match inputFile with
  | none => Except.error ReadAbort.fileNotFound
  | some lines =>
    let original_words := (lines.map pyStrip).filter (fun l => !(l = ""))
    if original_words.isEmpty then Except.error (ReadAbort.systemExit 1)
    else Except.ok original_words

/-- The state a successfully constructed `WordProvider` holds. -/
structure WordProviderModel where
  words_to_process : List String
  file_mode : FileMode
deriving DecidableEq, Repr

/-- `WordProvider.__init__` → `_load_and_filter_words` (lines 12-17,
96-99): read the input words, then shuffle and filter.  `shuffled` stands
for the result of `random.shuffle` on the words that were read. -/
def mkWordProvider (inputFile : Option (List String))
    (shuffled : List String) (outputFile : Option (List String)) :
    Except ReadAbort WordProviderModel :=
  match readInputWords inputFile with
  | Except.error e => Except.error e
  | Except.ok _original_words =>
    let r := determineWordsToProcess shuffled outputFile
    Except.ok { words_to_process := r.1, file_mode := r.2 }

/-! ## Filename sanitization (src/word_processor.py lines 30-36 and
src/audio_generator.py lines 99-105) -/

/-- The German letters the sanitizers additionally keep:
the Python string literal `'äöüÄÖÜß'`. -/
def germanChars : List Char := "äöüÄÖÜß".data

/-- `WordProcessor._sanitize_filename` (word_processor.py lines 30-36):
strip the text, then keep each alphanumeric or German character and
replace every other character by `'_'`. -/
def sanitizeFilename (text : String) : String :=
  let sanitized := pyStrip text
  String.mk (sanitized.data.map
    (fun c => if pyIsAlnum c || germanChars.contains c then c else '_'))

/-- `GTTSAudioService._sanitize_filename` (audio_generator.py lines
99-105): a character-for-character identical implementation of the same
rule. -/
def gttsSanitizeFilename (text : String) : String :=
  let sanitized := pyStrip text
  String.mk (sanitized.data.map
    (fun c => if pyIsAlnum c || germanChars.contains c then c else '_'))

/-! ## `GroqLLMService` (src/llm.py lines 69-374)

Word data as defined in src/structures.py; the parsing helpers
`_parse_response`, `_parse_word_type`, `_parse_gender`,
`_create_empty_word_data`, `_parse_translated_response`; and
`process_word` / `process_words` with the two network calls
(`_generate_content` and the translation call) given by oracles. -/

inductive WordType
  | noun
  | verb
  | adjective
  | adverb
  | preposition
  | other
deriving DecidableEq, Repr

inductive Gender
  | masculine
  | feminine
  | neuter
deriving DecidableEq, Repr

/-- `WordData` (structures.py lines 42-61). -/
structure WordData where
  word : String
  word_translation : String
  phrase : String
  translation : String
  word_type : WordType
  conjugation : String
  case_info : String
  gender : Option Gender
  plural : String
  additional_info : String
  related_words : String
deriving DecidableEq, Repr

/-- `_create_empty_word_data` (llm.py lines 246-260). -/
def createEmptyWordData (word : String) : WordData :=
  { word := word, word_translation := "", phrase := "", translation := "",
    word_type := WordType.other, conjugation := "", case_info := "",
    gender := none, plural := "", additional_info := "", related_words := "" }

/-- Python `str.lower()` restricted to ASCII (the strings it is applied to
here are word-type / gender keywords and language names). -/
def pyLower (s : String) : String := String.mk (s.data.map Char.toLower)

/-- `_parse_word_type` (llm.py lines 262-277): substring tests on the
lowered string, in source order. -/
def parseWordType (word_type_str : String) : WordType :=
  let l := (pyLower word_type_str).data
  if containsSub "noun".data l then WordType.noun
  else if containsSub "verb".data l then WordType.verb
  else if containsSub "adjective".data l then WordType.adjective
  else if containsSub "adverb".data l then WordType.adverb
  else if containsSub "preposition".data l then WordType.preposition
  else WordType.other

/-- `_parse_gender` (llm.py lines 279-290). -/
def parseGender (gender_str : String) : Option Gender :=
  let l := (pyLower gender_str).data
  if containsSub "masculine".data l then some Gender.masculine
  else if containsSub "feminine".data l then some Gender.feminine
  else if containsSub "neuter".data l then some Gender.neuter
  else none

/-- Python `line.split(":", 1)[1]` for a line known to contain `':'`
(it starts with `"English translation:"` or `"Translation:"`): everything
after the first colon; without a colon the subscript would fail, but the
guarding `startswith` makes the colon present. -/
def afterFirstColon (line : String) : String :=
  String.mk ((line.data.dropWhile (fun c => !(c = ':'))).drop 1)

/-- Python `str.replace(old, new)` on lists: replace every (left-to-right,
non-overlapping) occurrence. -/
def replaceAll (old new : List Char) : List Char → List Char
  | [] => []
  | c :: rest =>
    if h : old ≠ [] ∧ old.isPrefixOf (c :: rest) then
      new ++ replaceAll old new ((c :: rest).drop old.length)
    else c :: replaceAll old new rest
termination_by l => l.length
decreasing_by
· simp only [List.length_drop, List.length_cons]
  have hne : old.length ≠ 0 := fun h0 => h.1 (List.length_eq_zero.mp h0)
  omega
· simp only [List.length_cons]
  omega

/-- Python `str.replace`. -/
def pyReplace (s old new : String) : String :=
  String.mk (replaceAll old.data new.data s.data)

/-- The body of `_parse_response`'s line loop (llm.py lines 221-242):
strip the line, then dispatch on its prefix and update one field. -/
def parseResponseLine (result : WordData) (line : String) : WordData :=
  let line := pyStrip line
  if line.startsWith "Word type:" then
    { result with word_type := parseWordType (pyStrip (pyReplace line "Word type:" "")) }
  else if line.startsWith "Word translation:" then
    { result with word_translation := pyStrip (pyReplace line "Word translation:" "") }
  else if line.startsWith "German sentence:" then
    { result with phrase := pyStrip (pyReplace line "German sentence:" "") }
  else if line.startsWith "English translation:" || line.startsWith "Translation:" then
    { result with translation := pyStrip (afterFirstColon line) }
  else if line.startsWith "Conjugation:" then
    { result with conjugation := pyStrip (pyReplace line "Conjugation:" "") }
  else if line.startsWith "Case:" then
    { result with case_info := pyStrip (pyReplace line "Case:" "") }
  else if line.startsWith "Gender:" then
    { result with gender := parseGender (pyStrip (pyReplace line "Gender:" "")) }
  else if line.startsWith "Plural form:" then
    { result with plural := pyStrip (pyReplace line "Plural form:" "") }
  else if line.startsWith "Additional info:" then
    { result with additional_info := pyStrip (pyReplace line "Additional info:" "") }
  else if line.startsWith "Related words:" then
    { result with related_words := pyStrip (pyReplace line "Related words:" "") }
  else result

/-- `_parse_response` (llm.py lines 215-244): start from the empty word
data and fold the stripped response's lines. -/
def parseResponse (word : String) (response_text : String) : WordData :=
  ((pyStrip response_text).splitOn "\n").foldl parseResponseLine
    (createEmptyWordData word)

/-- The body of `_parse_translated_response`'s line loop (llm.py lines
363-372): only four fields can be updated. -/
def parseTranslatedLine (result : WordData) (line : String) : WordData :=
  let line := pyStrip line
  if line.startsWith "Word translation:" then
    { result with word_translation := pyStrip (pyReplace line "Word translation:" "") }
  else if line.startsWith "English translation:" then
    { result with translation := pyStrip (pyReplace line "English translation:" "") }
  else if line.startsWith "Related words:" then
    { result with related_words := pyStrip (pyReplace line "Related words:" "") }
  else if line.startsWith "Additional info:" then
    { result with additional_info := pyStrip (pyReplace line "Additional info:" "") }
  else result

/-- `_parse_translated_response` (llm.py lines 343-374): copy the original
data (keeping the original word and German sentence) and fold the
translated content's lines. -/
def parseTranslatedResponse (original : WordData) (translated_content : String) :
    WordData :=
  ((pyStrip translated_content).splitOn "\n").foldl parseTranslatedLine original

/-- The outcomes of the two network calls a single `process_word`
invocation can make: `_generate_content`'s result (`none` models its
caught internal exception, lines 132-134), and the translation call's
response (`none` models the exception caught in `_translate_word_data`,
lines 317-320, which returns the English data unchanged). -/
structure LLMCallEnv where
  content : Option String
  translated : Option String

/-- `GroqLLMService.process_word` (llm.py lines 76-98): rate limiting does
not affect the returned value (the blocking consume always succeeds), so
it is omitted here; any error path yields `none`. -/
def llmProcessWord (env : LLMCallEnv) (word : String)
    (target_language : String) : Option WordData :=
  match env.content with
  | none => none
  | some response =>
    let english := parseResponse word response
    if !(pyLower target_language = "english") then
      match env.translated with
      | none => some english
      | some t => some (parseTranslatedResponse english t)
    else some english

/-- `GroqLLMService.process_words` (llm.py lines 100-112): process each
word in order; a `None` result is replaced by the empty word data for that
word, keeping one result per word in order.  The oracle is indexed by the
position of the call, since each call hits the network anew. -/
def llmProcessWordsAux (env : Nat → LLMCallEnv) (target_language : String) :
    Nat → List String → List WordData
  | _, [] => []
  | i, w :: ws =>
    (match llmProcessWord (env i) w target_language with
     | some result => result
     | none => createEmptyWordData w) :: llmProcessWordsAux env target_language (i + 1) ws

/-- `GroqLLMService.process_words`, started at call index 0. -/
def llmProcessWords (env : Nat → LLMCallEnv) (words : List String)
    (target_language : String) : List WordData :=
  llmProcessWordsAux env target_language 0 words

/-! ## `WordProcessor` retry handling (src/word_processor.py)

`_handle_groq_error` (lines 89-107) reads `self.MAX_GROQ_RETRIES` (line
95) and `self.MAX_BACKOFF_DELAY` (line 105).  `WordProcessor.__init__`
assigns only `args` and `can_generate_images`, and the class body defines
no other attribute; the module-level constant `MAX_GROQ_RETRIES = 50`
(line 14) is not an attribute of the class or instance, and
`MAX_BACKOFF_DELAY` is not defined anywhere in the repository.  A Python
attribute access that resolves to nothing raises `AttributeError`; that is
modelled by the lookup below. -/

/-- Python exceptions relevant to the retry path. -/
inductive PyExc
  | attributeError (attr : String)
  | groqError (name : String) (detail : String)
deriving DecidableEq, Repr

/-- Numeric attribute lookup on a `WordProcessor` instance: no numeric
attribute exists (`__init__` sets only `args` and `can_generate_images`,
the class body only methods), so every lookup fails. -/
def wordProcessorNumAttr (_attr : String) : Option ℚ := none

/-- `_handle_groq_error(error, word, retries)` (lines 89-107): the retry
cap check reads `self.MAX_GROQ_RETRIES`; rate-limit errors get the fixed
31-second delay; other errors get `min(2 ** retries, self.MAX_BACKOFF_DELAY)`.
Result on success: `(should_retry, delay_seconds, retries)`. -/
def handleGroqError (errorName : String) (_word : String) (retries : Nat) :
    Except PyExc (Bool × ℚ × Nat) :=
  match wordProcessorNumAttr "MAX_GROQ_RETRIES" with
  | none => Except.error (PyExc.attributeError "MAX_GROQ_RETRIES")
  | some maxRetries =>
    if maxRetries ≤ (retries : ℚ) then Except.ok (false, 0, retries)
    else if errorName = "RateLimitError" then Except.ok (true, 31, retries + 1)
    else
      match wordProcessorNumAttr "MAX_BACKOFF_DELAY" with
      | none => Except.error (PyExc.attributeError "MAX_BACKOFF_DELAY")
      | some maxBackoff =>
        Except.ok (true, min ((2 : ℚ) ^ retries) maxBackoff, retries + 1)

/-- The class name of a modelled exception (`error.__class__.__name__`,
line 91). -/
def pyExcName : PyExc → String
  | PyExc.attributeError _ => "AttributeError"
  | PyExc.groqError name _ => name

/-- The item dictionaries returned by `llm_generator.process_german_words`,
restricted to the fields `_generate_text` inspects. -/
structure LLMItem where
  word : String
  word_translation : String
deriving DecidableEq, Repr

/-- One iteration of `_generate_text`'s `while True` body (lines 109-134),
given the outcome of this attempt's `llm_generator.process_german_words`
call (`.ok none` models an empty result list, `.error` an exception) and
the current retry count.  `Sum.inl` is a `return` from the loop, `Sum.inr`
a retry carrying the delay and the next retry count; `Except.error` is an
exception escaping `_generate_text` (there is no handler around
`_handle_groq_error`). -/
def generateTextStep (outcome : Except PyExc (Option LLMItem))
    (word : String) (retries : Nat) :
    Except PyExc (Sum (Option LLMItem) (ℚ × Nat)) :=
  match outcome with
  | Except.ok none => Except.ok (Sum.inl none)
  | Except.ok (some item) =>
    if item.word_translation = "" then Except.ok (Sum.inl none)
    else Except.ok (Sum.inl (some item))
  | Except.error e =>
    match handleGroqError (pyExcName e) word retries with
    | Except.error e2 => Except.error e2
    | Except.ok (shouldRetry, delay, retries2) =>
      if shouldRetry then Except.ok (Sum.inr (delay, retries2))
      else Except.ok (Sum.inl none)

/-! ## `WordProcessor.process_word` (src/word_processor.py lines 38-71)
and the processing loop (src/app.py lines 237-274) -/

/-- The external outcomes a single `process_word` invocation depends on:
the outcome of `_generate_text` (an exception there escapes, see
`generateTextStep`), the result of `_format_base_line` (which catches its
own exceptions, lines 136-149, hence an `Option`), and the raw outcomes of
the image and audio generation attempts (whose exceptions are caught
inside `_generate_image` / `_generate_audio`). -/
structure WPEnv where
  text : Except PyExc (Option LLMItem)
  fmt : Option String
  imgCall : Except PyExc String
  audioCall : Except PyExc String

/-- `_generate_image` (lines 151-204) as seen from `process_word`: `""`
when image generation is disabled, and `""` on any caught exception,
otherwise the produced tag. -/
def generateImageTag (can_generate_images : Bool)
    (imgCall : Except PyExc String) : String :=
  if !can_generate_images then ""
  else
    match imgCall with
    | Except.ok tag => tag
    | Except.error _ => ""

/-- `_generate_audio` (lines 206-231): `""` when `--no-audio` is set, and
`""` on any caught exception (including an empty tag from the generator). -/
def generateAudioTag (no_audio : Bool) (audioCall : Except PyExc String) :
    String :=
  if no_audio then ""
  else
    match audioCall with
    | Except.ok tag => tag
    | Except.error _ => ""

/-- `base_line.split(';', 1)` with the `ValueError` fallback of lines
55-60: split at the first `;` when present, otherwise use the whole line
as the english part with an empty german part. -/
def splitFirstSemicolon (s : String) : String × String :=
  let a := s.data.takeWhile (fun c => !(c = ';'))
  let b := s.data.dropWhile (fun c => !(c = ';'))
  match b with
  | [] => (s, "")
  | _ :: after => (String.mk a, String.mk after)

/-- `WordProcessor.process_word` (lines 38-71): text generation, base-line
formatting, tag insertion.  `Except.ok none` is the `return None` failure
path; `Except.error` an exception escaping the method (it installs no
handler of its own). -/
def wpProcessWord (no_audio can_generate_images : Bool) (env : WPEnv)
    (_word : String) : Except PyExc (Option String) :=
  match env.text with
  | Except.error e => Except.error e
  | Except.ok none => Except.ok none
  | Except.ok (some _item) =>
    match env.fmt with
    | none => Except.ok none
    | some base_line =>
      let p := splitFirstSemicolon base_line
      let img_tag := generateImageTag can_generate_images env.imgCall
      let sound_tag := generateAudioTag no_audio env.audioCall
      Except.ok (some (img_tag ++ p.1 ++ ";" ++ sound_tag ++ p.2))

/-- The loop state of `AnkiGeneratorApp._run_processing_loop`:
`successful_count`, `failed_words`, the lines written to the output file,
and the exception (if any) caught by the loop-level handler at lines
273-274 — it is printed, never re-raised. -/
structure LoopState where
  successful_count : Nat
  failed_words : List String
  written : List String
  caught : Option PyExc
deriving DecidableEq, Repr

/-- `_run_processing_loop`'s `for` body (app.py lines 264-274), driven by
an oracle `pw` giving `process_word`'s outcome per word: a `None` result
appends the word to `failed_words` and continues; a line is written and
counted; an exception aborts the `for` and is caught by the surrounding
`except` (nothing propagates past the loop). -/
def runProcessingLoop (pw : String → Except PyExc (Option String)) :
    List String → LoopState → LoopState
  | [], st => st
  | w :: ws, st =>
    match pw w with
    | Except.error e => { st with caught := some e }
    | Except.ok (some line) =>
      runProcessingLoop pw ws
        { st with written := st.written ++ [line],
                  successful_count := st.successful_count + 1 }
    | Except.ok none =>
      runProcessingLoop pw ws
        { st with failed_words := st.failed_words ++ [w] }

/-- The loop started from the freshly initialized app state. -/
def runLoop (pw : String → Except PyExc (Option String))
    (words : List String) : LoopState :=
  runProcessingLoop pw words
    { successful_count := 0, failed_words := [], written := [], caught := none }

/-! ## `AnkiCardProcessor.process_words` (src/processor.py lines 52-94)
with `ProcessingStats` (src/structures.py lines 103-118) -/

/-- `ProcessingStats` without the wall-clock timing fields (floats derived
from `time.time()`, irrelevant to the accounting claims). -/
structure ProcessingStats where
  total_words : Nat
  processed_words : Nat
  failed_words : Nat
  failed_word_list : List String
deriving DecidableEq, Repr

/-- `ProcessingResult` (structures.py lines 78-86) restricted to the
fields the accounting reads. -/
structure ProcessingResultM where
  success : Bool
  word : String
  error_message : Option String
deriving DecidableEq, Repr

/-- What a single `AnkiCardProcessor.process_word` call (processor.py
lines 96-142) depends on: the LLM service call's outcomes, and whether
some later step (media generation bookkeeping, card creation, media
copying) raises — such an exception is caught by the method's own
`except` at lines 136-142. -/
structure ProcStepEnv where
  llm : LLMCallEnv
  stepExc : Option String

/-- `AnkiCardProcessor.process_word`: a falsy LLM result yields the fixed
failure message; an exception in the later steps yields `str(e)`;
otherwise success. -/
def processorProcessWord (env : ProcStepEnv) (target_language : String)
    (word : String) : ProcessingResultM :=
  match llmProcessWord env.llm word target_language with
  | none =>
    { success := false, word := word,
      error_message := some "Failed to process word with LLM" }
  | some _word_data =>
    match env.stepExc with
    | some e => { success := false, word := word, error_message := some e }
    | none => { success := true, word := word, error_message := none }

/-- The `for` loop of `AnkiCardProcessor.process_words` (lines 60-87):
append each result and update the statistics of the current run. -/
def processorLoop (env : Nat → ProcStepEnv) (target_language : String) :
    Nat → ProcessingStats → List String →
    List ProcessingResultM × ProcessingStats
  | _, stats, [] => ([], stats)
  | i, stats, w :: ws =>
    let r := processorProcessWord (env i) target_language w
    let stats :=
      if r.success then
        { stats with processed_words := stats.processed_words + 1 }
      else
        { stats with failed_words := stats.failed_words + 1,
                     failed_word_list := stats.failed_word_list ++ [w] }
    let rest := processorLoop env target_language (i + 1) stats ws
    (r :: rest.1, rest.2)

/-- `AnkiCardProcessor.process_words` (lines 52-94): statistics are reset
to `ProcessingStats(total_words=len(words))` at line 55, then the loop
runs. -/
def processorProcessWords (env : Nat → ProcStepEnv)
    (target_language : String) (words : List String) :
    List ProcessingResultM × ProcessingStats :=
  processorLoop env target_language 0
    { total_words := words.length, processed_words := 0, failed_words := 0,
      failed_word_list := [] } words

/-! ## Theorems: rate limiter (C3, C4) -/

namespace RateLimiter

theorem refill_capacity (st : RateLimiter) (now : ℚ) :
    (st.refill now).capacity = st.capacity := by
  unfold refill; dsimp only; split <;> rfl

theorem refill_rate_invariant (st : RateLimiter) (now : ℚ) :
    (st.refill now).refill_rate = st.refill_rate := by
  unfold refill; dsimp only; split <;> rfl

theorem refill_tokens_nonneg (st : RateLimiter) (now : ℚ)
    (h0 : 0 ≤ st.tokens) (hcap : 0 ≤ st.capacity) :
    0 ≤ (st.refill now).tokens := by
  unfold refill
  dsimp only
  split
  · next h =>
      simp only [le_min_iff]
      exact ⟨hcap, by linarith⟩
  · exact h0

theorem refill_tokens_le (st : RateLimiter) (now : ℚ)
    (htok : st.tokens ≤ st.capacity) :
    (st.refill now).tokens ≤ (st.refill now).capacity := by
  unfold refill
  dsimp only
  split
  · exact min_le_left _ _
  · exact htok

theorem refill_lrt_le (st : RateLimiter) (now : ℚ)
    (hclock : st.last_refill_time ≤ now) :
    (st.refill now).last_refill_time ≤ now := by
  unfold refill
  dsimp only
  split
  · exact le_refl now
  · exact hclock

/-- The refill equation of the specification, valid whenever the clock has
not moved backwards, the refill rate is nonnegative, and the bucket is not
over capacity. -/
theorem refill_tokens_eq (st : RateLimiter) (now : ℚ)
    (hrate : 0 ≤ st.refill_rate) (hclock : st.last_refill_time ≤ now)
    (htok : st.tokens ≤ st.capacity) :
    (st.refill now).tokens
      = min st.capacity (st.tokens + (now - st.last_refill_time) * st.refill_rate) := by
  unfold refill
  dsimp only
  split
  · rfl
  · next h =>
    have he : 0 ≤ now - st.last_refill_time := by linarith
    have h1 : 0 ≤ (now - st.last_refill_time) * st.refill_rate :=
      mul_nonneg he hrate
    have h2 : (now - st.last_refill_time) * st.refill_rate = 0 := le_antisymm (not_lt.mp h) h1
    rw [h2, add_zero, min_eq_right htok]

end RateLimiter

namespace RateLimiter

/-- Branch behavior of `consume`: enough tokens after the refill. -/
theorem consume_enough (st : RateLimiter) (n : ℚ) (block : Bool) (now wake : ℚ)
    (h : n ≤ (st.refill now).tokens) :
    st.consume n block now wake
      = (true, { st.refill now with tokens := (st.refill now).tokens - n }) := by
  unfold consume
  dsimp only
  rw [if_pos h]

/-- Branch behavior of `consume`: not enough tokens and non-blocking —
failure, with no state change beyond the refill. -/
theorem consume_noblock (st : RateLimiter) (n : ℚ) (now wake : ℚ)
    (h : ¬ n ≤ (st.refill now).tokens) :
    st.consume n false now wake = (false, st.refill now) := by
  unfold consume
  dsimp only
  rw [if_neg h]
  simp only [Bool.not_false, if_true]

/-- Branch behavior of `consume`: not enough tokens and blocking — a
second refill at the post-sleep time, then unconditional subtraction. -/
theorem consume_block (st : RateLimiter) (n : ℚ) (now wake : ℚ)
    (h : ¬ n ≤ (st.refill now).tokens) :
    st.consume n true now wake
      = (true, { (st.refill now).refill wake with
                   tokens := ((st.refill now).refill wake).tokens - n }) := by
  unfold consume
  dsimp only
  rw [if_neg h]
  simp only [Bool.not_true, Bool.false_eq_true, if_false]

/-- If the elapsed-time credit is enough to reach `m ≤ capacity` and the
bucket is currently below `m`, the refill reaches at least `m`. -/
theorem refill_tokens_ge (st : RateLimiter) (now : ℚ) (m : ℚ)
    (hcap : m ≤ st.capacity)
    (hcredit : m ≤ st.tokens + (now - st.last_refill_time) * st.refill_rate)
    (hbelow : st.tokens < m) :
    m ≤ (st.refill now).tokens := by
  unfold refill
  dsimp only
  rw [if_pos (by linarith)]
  exact le_min hcap hcredit

/-- Preservation of the invariant by a single well-timed `consume` call
requesting at most `capacity` tokens. -/
theorem inv_consume (st : RateLimiter) (n : ℚ) (block : Bool) (now wake : ℚ)
    (hinv : st.Inv) (hn0 : 0 ≤ n) (hncap : n ≤ st.capacity)
    (hclock : st.last_refill_time ≤ now)
    (hwake : now + (st.refill now).waitTime n ≤ wake) :
    (st.consume n block now wake).2.Inv := by
  obtain ⟨h0, hc, hr⟩ := hinv
  have hcap0 : 0 ≤ st.capacity := le_trans h0 hc
  have h10 : 0 ≤ (st.refill now).tokens := refill_tokens_nonneg st now h0 hcap0
  have h1c : (st.refill now).tokens ≤ (st.refill now).capacity :=
    refill_tokens_le st now hc
  have h1cap : (st.refill now).capacity = st.capacity := refill_capacity st now
  have h1r : (st.refill now).refill_rate = st.refill_rate :=
    refill_rate_invariant st now
  have h1lrt : (st.refill now).last_refill_time ≤ now := refill_lrt_le st now hclock
  rw [h1cap] at h1c
  by_cases hle : n ≤ (st.refill now).tokens
  · rw [consume_enough st n block now wake hle]
    exact ⟨by simp only; linarith, by simp only [h1cap]; linarith,
           by simp only [h1r]; exact hr⟩
  · cases block with
    | false =>
      rw [consume_noblock st n now wake hle]
      exact ⟨h10, by rw [h1cap]; exact h1c, by rw [h1r]; exact hr⟩
    | true =>
      rw [consume_block st n now wake hle]
      have hbelow : (st.refill now).tokens < n := not_le.mp hle
      have hwait : (st.refill now).waitTime n
          = (n - (st.refill now).tokens) / st.refill_rate := by
        unfold waitTime; rw [h1r]
      have helapsed : (n - (st.refill now).tokens) / st.refill_rate
          ≤ wake - (st.refill now).last_refill_time := by
        rw [hwait] at hwake; linarith
      have hcredit : n ≤ (st.refill now).tokens
          + (wake - (st.refill now).last_refill_time) * (st.refill now).refill_rate := by
        rw [h1r]
        have hmul := mul_le_mul_of_nonneg_right helapsed (le_of_lt hr)
        rw [div_mul_cancel₀ _ (ne_of_gt hr)] at hmul
        linarith
      have hX : n ≤ ((st.refill now).refill wake).tokens :=
        refill_tokens_ge (st.refill now) wake n (by rw [h1cap]; exact hncap)
          hcredit hbelow
      have hXc : ((st.refill now).refill wake).tokens
          ≤ ((st.refill now).refill wake).capacity :=
        refill_tokens_le (st.refill now) wake (by rw [h1cap]; exact h1c)
      have hXcap : ((st.refill now).refill wake).capacity = st.capacity := by
        rw [refill_capacity, h1cap]
      have hXr : ((st.refill now).refill wake).refill_rate = st.refill_rate := by
        rw [refill_rate_invariant, h1r]
      refine ⟨by simp only; linarith, ?_, by simp only [hXr]; exact hr⟩
      simp only [hXcap]
      rw [hXcap] at hXc
      linarith

/-- The invariant is preserved along any well-formed call sequence. -/
theorem inv_runCalls (st : RateLimiter) (calls : List Call)
    (hinv : st.Inv) (hwf : WFCalls st calls) : (runCalls st calls).Inv := by
  induction calls generalizing st with
  | nil => exact hinv
  | cons c cs ih =>
    obtain ⟨hn0, hncap, hclock, hwake, hrest⟩ := hwf
    exact ih _ (inv_consume st c.n c.block c.now c.wake hinv hn0 hncap hclock hwake) hrest

/-- Well-formedness restricts to prefixes of a call sequence. -/
theorem wfCalls_append (st : RateLimiter) (l1 l2 : List Call)
    (h : WFCalls st (l1 ++ l2)) : WFCalls st l1 := by
  induction l1 generalizing st with
  | nil => trivial
  | cons c cs ih =>
    obtain ⟨hn0, hncap, hclock, hwake, hrest⟩ := h
    exact ⟨hn0, hncap, hclock, hwake, ih _ hrest⟩

end RateLimiter

/-- C3: `consume(n, block)` first refills the bucket to
`min(capacity, tokens + elapsed * refill_rate)`; if `n` tokens are then
available it subtracts them and succeeds, and otherwise a non-blocking
call fails leaving the state unchanged beyond the refill.  With
`capacity = 5, refill_rate = 1`: `consume(5, block=False)` right after
construction succeeds leaving 0 tokens, an immediate
`consume(1, block=False)` fails, and once at least 1 second has elapsed
`consume(1, block=False)` succeeds. -/
theorem C3_consume_spec (st : RateLimiter) (n : ℚ) (block : Bool) (now wake : ℚ)
    (hrate : 0 ≤ st.refill_rate) (hclock : st.last_refill_time ≤ now)
    (htok : st.tokens ≤ st.capacity) :
    ((st.refill now).tokens
        = min st.capacity (st.tokens + (now - st.last_refill_time) * st.refill_rate)) ∧
    (n ≤ (st.refill now).tokens →
      st.consume n block now wake
        = (true, { st.refill now with tokens := (st.refill now).tokens - n })) ∧
    (¬ n ≤ (st.refill now).tokens →
      st.consume n false now wake = (false, st.refill now)) ∧
    ((RateLimiter.init 5 1 0).consume 5 false 0 0
        = (true, { capacity := 5, tokens := 0, refill_rate := 1, last_refill_time := 0 })) ∧
    ((({ capacity := 5, tokens := 0, refill_rate := 1, last_refill_time := 0 } :
        RateLimiter).consume 1 false 0 0).1 = false) ∧
    (∀ t : ℚ, 1 ≤ t →
      (({ capacity := 5, tokens := 0, refill_rate := 1, last_refill_time := 0 } :
          RateLimiter).consume 1 false t t).1 = true) := by
  refine ⟨RateLimiter.refill_tokens_eq st now hrate hclock htok,
          fun h => RateLimiter.consume_enough st n block now wake h,
          fun h => RateLimiter.consume_noblock st n now wake h,
          ?_, ?_, ?_⟩
  · norm_num [RateLimiter.init, RateLimiter.consume, RateLimiter.refill]
  · norm_num [RateLimiter.consume, RateLimiter.refill]
  · intro t ht
    have h1 : (0:ℚ) < (t - 0) * 1 := by linarith
    simp only [RateLimiter.consume, RateLimiter.refill]
    rw [if_pos h1, if_pos]
    simp only [le_min_iff]
    exact ⟨by norm_num, by linarith⟩

/-- Witness for C3 at the constructed limiter with `capacity = 5`,
`refill_rate = 1`: the refill equation evaluated concretely. -/
theorem C3_consume_spec_witness :
    ((RateLimiter.init 5 1 0).refill 0).tokens
      = min (5:ℚ) (5 + (0 - 0) * 1) :=
  (C3_consume_spec (RateLimiter.init 5 1 0) 1 false 0 0
    (by norm_num [RateLimiter.init]) (by norm_num [RateLimiter.init])
    (by norm_num [RateLimiter.init])).1

/-- C4 counterexample: the claim quantifies over every `n`, but a blocking
`consume` of `n = 6 > capacity = 5` drives the token count to `-1` — the
second refill is capped at `capacity` before `n` is subtracted
unconditionally.  The wake time used respects the computed sleep deadline
(`0 + waitTime = 1 ≤ 1`), so this is a legitimate execution. -/
theorem C4_counterexample :
    ((RateLimiter.init 5 1 0).consume 6 true 0 1).2.tokens = -1 ∧
    ¬ (0 ≤ ((RateLimiter.init 5 1 0).consume 6 true 0 1).2.tokens) ∧
    0 + ((RateLimiter.init 5 1 0).refill 0).waitTime 6 ≤ 1 := by
  norm_num [RateLimiter.init, RateLimiter.consume, RateLimiter.refill,
    RateLimiter.waitTime]

/-- C4 (amended): along any sequence of well-timed `consume` calls each
requesting `0 ≤ n ≤ capacity` (blocking or not), starting from a state
satisfying the invariant with a positive refill rate, the token count
stays within `0 ≤ tokens ≤ capacity` after every call (i.e. after every
prefix of the sequence). -/
theorem C4_token_bucket_invariant (st : RateLimiter)
    (calls pre suf : List RateLimiter.Call)
    (hinv : st.Inv) (hwf : RateLimiter.WFCalls st calls)
    (hsplit : calls = pre ++ suf) :
    0 ≤ (RateLimiter.runCalls st pre).tokens ∧
    (RateLimiter.runCalls st pre).tokens ≤ (RateLimiter.runCalls st pre).capacity := by
  subst hsplit
  have h := RateLimiter.inv_runCalls st pre hinv
    (RateLimiter.wfCalls_append st pre suf hwf)
  exact ⟨h.1, h.2.1⟩

/-- Witness for C4 (amended): the full-capacity non-blocking call on the
fresh limiter leaves the bucket inside its bounds. -/
theorem C4_token_bucket_invariant_witness :
    0 ≤ (RateLimiter.runCalls (RateLimiter.init 5 1 0) [⟨5, false, 0, 0⟩]).tokens ∧
    (RateLimiter.runCalls (RateLimiter.init 5 1 0) [⟨5, false, 0, 0⟩]).tokens
      ≤ (RateLimiter.runCalls (RateLimiter.init 5 1 0) [⟨5, false, 0, 0⟩]).capacity :=
  C4_token_bucket_invariant (RateLimiter.init 5 1 0)
    [⟨5, false, 0, 0⟩] [⟨5, false, 0, 0⟩] []
    (by norm_num [RateLimiter.init, RateLimiter.Inv])
    (by norm_num [RateLimiter.WFCalls, RateLimiter.init, RateLimiter.refill,
          RateLimiter.waitTime])
    (by simp)

/-! ## Theorems: word provider (C1, C2, C7) -/

theorem insertSet_nodup (s : List String) (w : String) (h : s.Nodup) :
    (insertSet s w).Nodup := by
  unfold insertSet
  split
  · exact h
  · next hw =>
      rw [List.nodup_append]
      refine ⟨h, List.nodup_singleton w, fun x hx hmem => ?_⟩
      simp only [List.mem_singleton] at hmem
      subst hmem
      exact hw hx

theorem collect_aux_nodup (lines : List String) :
    ∀ acc : List String, acc.Nodup →
    (lines.foldl (fun s line =>
      match extractProcessedWord line with
      | some w => insertSet s w
      | none => s) acc).Nodup := by
  induction lines with
  | nil => intro acc h; exact h
  | cons l ls ih =>
    intro acc h
    simp only [List.foldl_cons]
    cases hx : extractProcessedWord l with
    | none => simpa [hx] using ih acc h
    | some w => simpa [hx] using ih _ (insertSet_nodup acc w h)

/-- The processed-words set is indeed a set: no duplicates. -/
theorem collectProcessedWords_nodup (lines : List String) :
    (collectProcessedWords lines).Nodup :=
  collect_aux_nodup lines [] List.nodup_nil

theorem resumeScan_nodup (file : Option (List String)) :
    (resumeScan file).1.Nodup := by
  unfold resumeScan
  cases file with
  | none => exact List.nodup_nil
  | some lines =>
    dsimp only
    split
    · exact List.nodup_nil
    · exact collectProcessedWords_nodup lines

/-- Counting the common elements of two duplicate-free lists from either
side gives the same number. -/
theorem length_filter_mem_comm (a b : List String)
    (ha : a.Nodup) (hb : b.Nodup) :
    (a.filter (fun x => b.contains x)).length
      = (b.filter (fun x => a.contains x)).length := by
  have h1 : (a.filter (fun x => b.contains x)).length
      = (a.toFinset ∩ b.toFinset).card := by
    rw [← List.toFinset_card_of_nodup (ha.filter _), List.toFinset_filter]
    congr 1
    ext x
    simp [Finset.mem_filter, Finset.mem_inter, List.mem_toFinset]
  have h2 : (b.filter (fun x => a.contains x)).length
      = (b.toFinset ∩ a.toFinset).card := by
    rw [← List.toFinset_card_of_nodup (hb.filter _), List.toFinset_filter]
    congr 1
    ext x
    simp [Finset.mem_filter, Finset.mem_inter, List.mem_toFinset]
  rw [h1, h2, Finset.inter_comm]

/-- C1 counterexample: with the duplicated input `["A", "A"]` (which the
claim does not exclude) and an output file marking `A` as processed, the
filtered result is empty (both copies are removed), but the claim's
length formula predicts `2 - 1 = 1`. -/
theorem C1_counterexample :
    (["A", "A"] : List String) ≠ [] ∧
    (["A", "A"] : List String).Perm ["A", "A"] ∧
    ¬ ((determineWordsToProcess ["A", "A"] (some ["x;[sound:A.mp3]"])).1.length
        = (["A", "A"] : List String).length
          - ((resumeScan (some ["x;[sound:A.mp3]"])).1.filter
              (fun i => (["A", "A"] : List String).contains i)).length) :=
  ⟨by decide, List.Perm.refl _, by decide⟩

/-- C1 (amended with the input being duplicate-free): the "to process"
result is a permutation of a subset of the input; a shuffled word is kept
exactly when it is not a member of the collected processed-identifier set;
and the result's length is the input length minus the number of collected
identifiers that exactly match input words. -/
theorem C1_words_to_process (input shuffled : List String)
    (file : Option (List String))
    (_hne : input ≠ []) (hperm : shuffled.Perm input) (hnodup : input.Nodup) :
    (determineWordsToProcess shuffled file).1.Subperm input ∧
    (∀ w ∈ shuffled,
      (w ∈ (determineWordsToProcess shuffled file).1 ↔
        ¬ w ∈ (resumeScan file).1)) ∧
    (determineWordsToProcess shuffled file).1.length
      = input.length
        - ((resumeScan file).1.filter (fun i => input.contains i)).length := by
  have hres : (determineWordsToProcess shuffled file).1
      = shuffled.filter (fun w => !((resumeScan file).1.contains w)) := rfl
  refine ⟨?_, ?_, ?_⟩
  · rw [hres]
    exact (List.filter_sublist shuffled).subperm.trans hperm.subperm
  · intro w hw
    rw [hres]
    simp [List.mem_filter, hw]
  · rw [hres]
    have hlen1 : (shuffled.filter (fun w => !((resumeScan file).1.contains w))).length
        = (input.filter (fun w => !((resumeScan file).1.contains w))).length :=
      (hperm.filter _).length_eq
    have hsplit : (input.filter (fun w => ((resumeScan file).1.contains w))).length
        + (input.filter (fun w => !((resumeScan file).1.contains w))).length
        = input.length := by
      rw [← List.length_append]
      exact (List.filter_append_perm _ input).length_eq
    have hcount := length_filter_mem_comm input (resumeScan file).1 hnodup
      (resumeScan_nodup file)
    omega

/-- Witness for C1 at a concrete resume situation: input `["A", "B"]`,
identity shuffle, output file marking `A`. -/
theorem C1_words_to_process_witness :
    (determineWordsToProcess ["A", "B"] (some ["x;[sound:A.mp3]"])).1.length
      = (["A", "B"] : List String).length
        - ((resumeScan (some ["x;[sound:A.mp3]"])).1.filter
            (fun i => (["A", "B"] : List String).contains i)).length :=
  (C1_words_to_process ["A", "B"] ["A", "B"] (some ["x;[sound:A.mp3]"])
    (by decide) (List.Perm.refl _) (by decide)).2.2

theorem collect_aux_eq_nil (lines : List String)
    (h : ∀ l ∈ lines, extractProcessedWord l = none) :
    ∀ acc : List String,
    (lines.foldl (fun s line =>
      match extractProcessedWord line with
      | some w => insertSet s w
      | none => s) acc) = acc := by
  induction lines with
  | nil => intro acc; rfl
  | cons l ls ih =>
    intro acc
    simp only [List.foldl_cons]
    have hl : extractProcessedWord l = none := h l (by simp)
    rw [show (match extractProcessedWord l with
        | some w => insertSet acc w
        | none => acc) = acc by rw [hl]]
    exact ih (fun x hx => h x (by simp [hx])) acc

/-- When no line carries a recognizable marker, the processed set is
empty. -/
theorem collectProcessedWords_eq_nil (lines : List String)
    (h : ∀ l ∈ lines, extractProcessedWord l = none) :
    collectProcessedWords lines = [] :=
  collect_aux_eq_nil lines h []

/-- C2 counterexample: an existing, non-empty output file with no
recognizable marker in any line — the scan finds nothing, yet
`get_file_mode()` (the method the application calls) reports append, not
write. -/
theorem C2_counterexample :
    extractProcessedWord "hello;world" = none ∧
    (resumeScan (some ["hello;world"])).1 = [] ∧
    getFileMode (some ["hello;world"]) = FileMode.append ∧
    FileMode.append ≠ FileMode.write := by decide

/-- C2 (amended): given an existing, non-empty output file none of whose
lines contains a recognizable marker, the provider returns all input
words to process and its internally determined `file_mode` attribute is
write; `get_file_mode()`, however, reports append for every existing
non-empty output file regardless of markers. -/
theorem C2_no_marker_modes (shuffled lines : List String)
    (hne : lines ≠ [])
    (hnomark : ∀ l ∈ lines, extractProcessedWord l = none) :
    determineWordsToProcess shuffled (some lines) = (shuffled, FileMode.write) ∧
    getFileMode (some lines) = FileMode.append := by
  have hcollect : collectProcessedWords lines = [] :=
    collectProcessedWords_eq_nil lines hnomark
  have hempty : lines.isEmpty = false := by
    cases lines with
    | nil => exact absurd rfl hne
    | cons a as => rfl
  constructor
  · unfold determineWordsToProcess resumeScan
    dsimp only
    rw [hempty, hcollect]
    simp [List.filter_eq_self]
  · simp [getFileMode, hempty]

/-- Witness for C2 (amended) on a marker-free single-line output file. -/
theorem C2_no_marker_modes_witness :
    determineWordsToProcess ["Haus"] (some ["hello;world"])
        = (["Haus"], FileMode.write) ∧
    getFileMode (some ["hello;world"]) = FileMode.append :=
  C2_no_marker_modes ["Haus"] ["hello;world"] (by decide) (by decide)

/-- C7: constructing the provider with a missing input file re-raises
`FileNotFoundError`; an input file whose stripped lines leave zero words
ends in `sys.exit(1)` (the `ValueError` raised inside the `try` is caught
by the function's own generic handler, which exits); and a successfully
constructed provider implies the input existed and had at least one
non-blank word — so no usable provider is ever returned in the two
failure cases. -/
theorem C7_construction_fails (inputFile : Option (List String))
    (shuffled : List String) (outputFile : Option (List String)) :
    (inputFile = none →
      mkWordProvider inputFile shuffled outputFile
        = Except.error ReadAbort.fileNotFound) ∧
    (∀ lines, inputFile = some lines →
      (lines.map pyStrip).filter (fun l => !(l = "")) = [] →
      mkWordProvider inputFile shuffled outputFile
        = Except.error (ReadAbort.systemExit 1)) ∧
    (∀ m, mkWordProvider inputFile shuffled outputFile = Except.ok m →
      inputFile ≠ none ∧
      ∀ lines, inputFile = some lines →
        (lines.map pyStrip).filter (fun l => !(l = "")) ≠ []) := by
  refine ⟨?_, ?_, ?_⟩
  · intro h
    subst h
    rfl
  · intro lines h hempty
    subst h
    simp [mkWordProvider, readInputWords, hempty]
  · intro m hok
    cases inputFile with
    | none => exact absurd hok (by simp [mkWordProvider, readInputWords])
    | some lines =>
      refine ⟨by simp, fun lines2 heq hempty => ?_⟩
      cases heq
      simp [mkWordProvider, readInputWords, hempty] at hok

/-- Witness for C7: missing input file and blank-only input file. -/
theorem C7_construction_fails_witness :
    mkWordProvider none ["Haus"] none = Except.error ReadAbort.fileNotFound ∧
    mkWordProvider (some ["", "  "]) ["Haus"] none
        = Except.error (ReadAbort.systemExit 1) :=
  ⟨(C7_construction_fails none ["Haus"] none).1 rfl,
   (C7_construction_fails (some ["", "  "]) ["Haus"] none).2.1 ["", "  "] rfl
     (by decide)⟩

/-! ## Theorems: filename sanitization (C8) -/

theorem pyIsAlnumNat_not_space (n : Nat) (h : pyIsAlnumNat n = true) :
    pyIsSpaceNat n = false := by
  simp only [pyIsAlnumNat, Bool.or_eq_true, Bool.and_eq_true, decide_eq_true_eq,
    Bool.not_eq_true', decide_eq_false_iff_not] at h
  simp only [pyIsSpaceNat, Bool.or_eq_false_iff, Bool.and_eq_false_iff,
    decide_eq_false_iff_not, Bool.not_eq_true, Bool.and_eq_true, decide_eq_true_eq]
  omega

theorem keep_char_not_space (c : Char)
    (h : (pyIsAlnum c || germanChars.contains c) = true) :
    pyIsSpace c = false := by
  simp only [Bool.or_eq_true] at h
  rcases h with h1 | h2
  · exact pyIsAlnumNat_not_space c.toNat h1
  · have hm : c ∈ germanChars := by
      simpa using h2
    fin_cases hm <;> decide

theorem dropWhile_eq_self_of_false {α : Type} (p : α → Bool) (l : List α)
    (h : ∀ c ∈ l, p c = false) : l.dropWhile p = l := by
  cases l with
  | nil => rfl
  | cons a as =>
    rw [List.dropWhile_cons, h a (List.mem_cons_self a as)]
    simp

theorem pyStripList_eq_self (l : List Char)
    (h : ∀ c ∈ l, pyIsSpace c = false) : pyStripList l = l := by
  unfold pyStripList
  rw [dropWhile_eq_self_of_false _ _ h,
      dropWhile_eq_self_of_false _ _ (fun c hc => h c (List.mem_reverse.mp hc)),
      List.reverse_reverse]

/-- C8 counterexample: the claim's description of the sanitizer ("replaces
every other character with '_'") is wrong for leading/trailing whitespace,
which the source strips before substituting: `" a"` becomes `"a"`, not
`"_a"`. -/
theorem C8_counterexample :
    sanitizeFilename " a" = "a" ∧ sanitizeFilename " a" ≠ "_a" := by
  constructor <;> decide

/-- C8 (amended): sanitization first trims leading and trailing
whitespace and then keeps alphanumeric and German characters, replacing
every other character with `'_'`; it is idempotent, and the audio
generator's sanitizer is the identical function. -/
theorem C8_sanitize_idempotent (s : String) :
    sanitizeFilename (sanitizeFilename s) = sanitizeFilename s ∧
    sanitizeFilename s = gttsSanitizeFilename s ∧
    sanitizeFilename s
      = String.mk ((pyStrip s).data.map
          (fun c => if pyIsAlnum c || germanChars.contains c then c else '_')) := by
  refine ⟨?_, rfl, rfl⟩
  have houtput : ∀ c ∈ (sanitizeFilename s).data,
      (pyIsAlnum c || germanChars.contains c) = true ∨ c = '_' := by
    intro c hc
    unfold sanitizeFilename at hc
    simp only [List.mem_map] at hc
    obtain ⟨c0, _, hc0⟩ := hc
    by_cases hk : (pyIsAlnum c0 || germanChars.contains c0) = true
    · left
      rw [if_pos hk] at hc0
      rw [← hc0]
      exact hk
    · right
      rw [if_neg hk] at hc0
      exact hc0.symm
  have hnospace : ∀ c ∈ (sanitizeFilename s).data, pyIsSpace c = false := by
    intro c hc
    rcases houtput c hc with h | h
    · exact keep_char_not_space c h
    · subst h; decide
  have hfix : ∀ c ∈ (sanitizeFilename s).data,
      (if pyIsAlnum c || germanChars.contains c then c else '_') = c := by
    intro c hc
    rcases houtput c hc with h | h
    · rw [if_pos h]
    · subst h; decide
  calc sanitizeFilename (sanitizeFilename s)
      = String.mk ((pyStripList (sanitizeFilename s).data).map
          (fun c => if pyIsAlnum c || germanChars.contains c then c else '_')) := rfl
    _ = String.mk ((sanitizeFilename s).data.map
          (fun c => if pyIsAlnum c || germanChars.contains c then c else '_')) := by
        rw [pyStripList_eq_self _ hnospace]
    _ = String.mk ((sanitizeFilename s).data.map (fun c => c)) := by
        rw [List.map_congr_left hfix]
    _ = String.mk ((sanitizeFilename s).data) := by rw [List.map_id']
    _ = sanitizeFilename s := rfl

/-! ## Theorems: retry handling and the processing loop (C5, C6) -/

/-- C5: the code contradicts its own tests here.  Every call of
`_handle_groq_error` raises `AttributeError` at the
`self.MAX_GROQ_RETRIES` access of word_processor.py line 95 (the class
defines no such attribute; `MAX_BACKOFF_DELAY` does not exist at all), so
on an LLM error `_generate_text` propagates an exception instead of
entering the bounded retry loop the claim (and
tests/test_word_processor.py) describe — evaluated at the failing input
and proved for every input. -/
theorem C5_retry_handler_raises :
    handleGroqError "RateLimitError" "Haus" 0
      = Except.error (PyExc.attributeError "MAX_GROQ_RETRIES") ∧
    (∀ name w r, handleGroqError name w r
      = Except.error (PyExc.attributeError "MAX_GROQ_RETRIES")) ∧
    generateTextStep
        (Except.error (PyExc.groqError "RateLimitError"
          "Rate limit exceeded. Please try again in 30s.")) "Haus" 0
      = Except.error (PyExc.attributeError "MAX_GROQ_RETRIES") :=
  ⟨rfl, fun _name _w _r => rfl, rfl⟩

/-- `process_word` outcomes, discriminated: the `return None` failure
path. -/
def isOkNone : Except PyExc (Option String) → Bool
  | Except.ok none => true
  | _ => false

/-- When every word's `process_word` call returns (rather than raises),
the loop visits every word: nothing is caught, the failed words are
exactly those with a `None` result (in order), and the rest are counted
as successes. -/
theorem runProcessingLoop_ok (pw : String → Except PyExc (Option String))
    (words : List String) :
    ∀ st : LoopState, (∀ w ∈ words, ∃ r, pw w = Except.ok r) →
    (runProcessingLoop pw words st).caught = st.caught ∧
    (runProcessingLoop pw words st).failed_words
      = st.failed_words ++ words.filter (fun w => isOkNone (pw w)) ∧
    (runProcessingLoop pw words st).successful_count
      = st.successful_count
        + (words.filter (fun w => !isOkNone (pw w))).length := by
  induction words with
  | nil => intro st _; simp [runProcessingLoop]
  | cons w ws ih =>
    intro st h
    obtain ⟨r, hr⟩ := h w (List.mem_cons_self w ws)
    have hws : ∀ x ∈ ws, ∃ r, pw x = Except.ok r :=
      fun x hx => h x (List.mem_cons_of_mem w hx)
    cases r with
    | none =>
      have hrec := ih { st with failed_words := st.failed_words ++ [w] } hws
      simp only [runProcessingLoop, hr] at hrec ⊢
      refine ⟨hrec.1, ?_, ?_⟩
      · rw [hrec.2.1]
        simp [List.filter_cons, hr, isOkNone]
      · rw [hrec.2.2]
        simp [List.filter_cons, hr, isOkNone]
    | some line =>
      have hrec := ih { st with written := st.written ++ [line],
                                successful_count := st.successful_count + 1 } hws
      simp only [runProcessingLoop, hr] at hrec ⊢
      refine ⟨hrec.1, ?_, ?_⟩
      · rw [hrec.2.1]
        simp [List.filter_cons, hr, isOkNone]
      · rw [hrec.2.2]
        simp [List.filter_cons, hr, isOkNone]
        omega

/-- An exception raised by `process_word` stops the `for` loop: the words
before it are handled normally, the exception is caught by the loop-level
handler (recorded, not propagated), and the words after it are never
attempted. -/
theorem runProcessingLoop_error (pw : String → Except PyExc (Option String))
    (pre : List String) :
    ∀ st : LoopState, ∀ w : String, ∀ post : List String, ∀ e : PyExc,
    (∀ x ∈ pre, ∃ r, pw x = Except.ok r) → pw w = Except.error e →
    runProcessingLoop pw (pre ++ w :: post) st
      = { runProcessingLoop pw pre st with caught := some e } := by
  induction pre with
  | nil =>
    intro st w post e _ hw
    simp [runProcessingLoop, hw]
  | cons x xs ih =>
    intro st w post e hpre hw
    obtain ⟨r, hr⟩ := hpre x (List.mem_cons_self x xs)
    have hxs : ∀ y ∈ xs, ∃ r, pw y = Except.ok r :=
      fun y hy => hpre y (List.mem_cons_of_mem x hy)
    cases r with
    | none =>
      simp only [List.cons_append, runProcessingLoop, hr]
      exact ih _ w post e hxs hw
    | some line =>
      simp only [List.cons_append, runProcessingLoop, hr]
      exact ih _ w post e hxs hw

/-- C6 counterexample: a word whose audio generation fails is neither
recorded in the failure list nor stops anything — `_generate_audio`
swallows the exception and the word is written (with an empty sound tag)
and counted as a success, contradicting the claim that any failure while
generating a word's audio puts the word in the failure list. -/
theorem C6_counterexample :
    runLoop (wpProcessWord false false
        { text := Except.ok (some { word := "Haus", word_translation := "house" }),
          fmt := some "house;Haus", imgCall := Except.ok "",
          audioCall := Except.error (PyExc.groqError "gTTSError" "boom") })
        ["Haus"]
      = { successful_count := 1, failed_words := [], written := ["house;Haus"],
          caught := none } ∧
    ¬ ("Haus" ∈ (runLoop (wpProcessWord false false
        { text := Except.ok (some { word := "Haus", word_translation := "house" }),
          fmt := some "house;Haus", imgCall := Except.ok "",
          audioCall := Except.error (PyExc.groqError "gTTSError" "boom") })
        ["Haus"]).failed_words) := by
  constructor <;> decide

/-- C6 (amended): failures that `process_word` reports by returning
`None` are recorded in the failure list and processing continues through
every word; failures inside audio or image generation are swallowed (the
word still succeeds, with an empty tag); and an exception escaping
`process_word` (e.g. the retry handler's `AttributeError`) never
propagates past the loop — it is caught at the loop level — but aborts
processing of the remaining words. -/
theorem C6_loop_error_boundary :
    (∀ (pw : String → Except PyExc (Option String)) (words : List String),
      (∀ w ∈ words, ∃ r, pw w = Except.ok r) →
      (runLoop pw words).caught = none ∧
      (runLoop pw words).failed_words
        = words.filter (fun w => isOkNone (pw w)) ∧
      (runLoop pw words).successful_count
        = (words.filter (fun w => !isOkNone (pw w))).length ∧
      (runLoop pw words).failed_words.length
          + (runLoop pw words).successful_count = words.length) ∧
    (∀ (pw : String → Except PyExc (Option String))
       (pre : List String) (w : String) (post : List String) (e : PyExc),
      (∀ x ∈ pre, ∃ r, pw x = Except.ok r) → pw w = Except.error e →
      runLoop pw (pre ++ w :: post)
        = { runLoop pw pre with caught := some e }) ∧
    (∀ (can_images : Bool) (env : WPEnv) (word : String) (item : LLMItem)
       (base : String),
      env.text = Except.ok (some item) → env.fmt = some base →
      ∃ line, wpProcessWord false can_images env word
        = Except.ok (some line)) := by
  refine ⟨?_, ?_, ?_⟩
  · intro pw words h
    have hrec := runProcessingLoop_ok pw words
      { successful_count := 0, failed_words := [], written := [], caught := none } h
    refine ⟨hrec.1, ?_, ?_, ?_⟩
    · simpa using hrec.2.1
    · simpa using hrec.2.2
    · have h1 : (runLoop pw words).failed_words.length
          = (words.filter (fun w => isOkNone (pw w))).length := by
        have := hrec.2.1
        simp only [runLoop] at *
        rw [this]
        simp
      have h2 : (runLoop pw words).successful_count
          = (words.filter (fun w => !isOkNone (pw w))).length := by
        simpa using hrec.2.2
      rw [h1, h2, ← List.length_append]
      exact (List.filter_append_perm _ words).length_eq
  · intro pw pre w post e hpre hw
    exact runProcessingLoop_error pw pre _ w post e hpre hw
  · intro can_images env word item base htext hfmt
    refine ⟨generateImageTag can_images env.imgCall
        ++ (splitFirstSemicolon base).1 ++ ";"
        ++ generateAudioTag false env.audioCall
        ++ (splitFirstSemicolon base).2, ?_⟩
    unfold wpProcessWord
    rw [htext, hfmt]

/-- Witness for C6 (amended): the word with failing audio still produces
a line (clause three applied at the concrete environment). -/
theorem C6_loop_error_boundary_witness :
    ∃ line, wpProcessWord false false
        { text := Except.ok (some { word := "Haus", word_translation := "house" }),
          fmt := some "house;Haus", imgCall := Except.ok "",
          audioCall := Except.error (PyExc.groqError "gTTSError" "boom") }
        "Haus"
      = Except.ok (some line) :=
  C6_loop_error_boundary.2.2 false
    { text := Except.ok (some { word := "Haus", word_translation := "house" }),
      fmt := some "house;Haus", imgCall := Except.ok "",
      audioCall := Except.error (PyExc.groqError "gTTSError" "boom") }
    "Haus" { word := "Haus", word_translation := "house" } "house;Haus" rfl rfl

/-! ## Theorems: LLM service result shape (C9) -/

set_option maxHeartbeats 1000000 in
/-- No branch of the response-parsing dispatch touches the `word` field. -/
theorem parseResponseLine_word (r : WordData) (line : String) :
    (parseResponseLine r line).word = r.word := by
  unfold parseResponseLine
  dsimp only
  split_ifs <;> rfl

theorem foldl_parseResponseLine_word (lines : List String) :
    ∀ r : WordData, (lines.foldl parseResponseLine r).word = r.word := by
  induction lines with
  | nil => intro r; rfl
  | cons l ls ih =>
    intro r
    rw [List.foldl_cons, ih, parseResponseLine_word]

/-- `_parse_response` keeps the original word. -/
theorem parseResponse_word (word response : String) :
    (parseResponse word response).word = word :=
  foldl_parseResponseLine_word _ (createEmptyWordData word)

theorem parseTranslatedLine_word (r : WordData) (line : String) :
    (parseTranslatedLine r line).word = r.word := by
  unfold parseTranslatedLine
  dsimp only
  split_ifs <;> rfl

theorem foldl_parseTranslatedLine_word (lines : List String) :
    ∀ r : WordData, (lines.foldl parseTranslatedLine r).word = r.word := by
  induction lines with
  | nil => intro r; rfl
  | cons l ls ih =>
    intro r
    rw [List.foldl_cons, ih, parseTranslatedLine_word]

/-- `_parse_translated_response` keeps the original word. -/
theorem parseTranslatedResponse_word (original : WordData) (t : String) :
    (parseTranslatedResponse original t).word = original.word :=
  foldl_parseTranslatedLine_word _ original

/-- A successful `process_word` result carries the word it was asked
about. -/
theorem llmProcessWord_word (env : LLMCallEnv) (word tl : String)
    (r : WordData) (h : llmProcessWord env word tl = some r) :
    r.word = word := by
  unfold llmProcessWord at h
  cases hc : env.content with
  | none => rw [hc] at h; exact absurd h (by simp)
  | some response =>
    rw [hc] at h
    dsimp only at h
    split at h
    · cases ht : env.translated with
      | none =>
        rw [ht] at h
        cases h
        exact parseResponse_word word response
      | some t =>
        rw [ht] at h
        cases h
        rw [parseTranslatedResponse_word, parseResponse_word]
    · cases h
      exact parseResponse_word word response

theorem llmProcessWordsAux_length (env : Nat → LLMCallEnv) (tl : String) :
    ∀ (ws : List String) (k : Nat),
    (llmProcessWordsAux env tl k ws).length = ws.length := by
  intro ws
  induction ws with
  | nil => intro k; rfl
  | cons w rest ih =>
    intro k
    simp only [llmProcessWordsAux, List.length_cons, ih]

theorem llmProcessWordsAux_get (env : Nat → LLMCallEnv) (tl : String) :
    ∀ (ws : List String) (k i : Nat)
      (h1 : i < (llmProcessWordsAux env tl k ws).length)
      (h2 : i < ws.length),
    (llmProcessWordsAux env tl k ws).get ⟨i, h1⟩
      = (match llmProcessWord (env (k + i)) (ws.get ⟨i, h2⟩) tl with
         | some r => r
         | none => createEmptyWordData (ws.get ⟨i, h2⟩)) := by
  intro ws
  induction ws with
  | nil => intro k i h1 h2; exact absurd h2 (by simp)
  | cons w rest ih =>
    intro k i h1 h2
    cases i with
    | zero => simp [llmProcessWordsAux]
    | succ j =>
      have h1' : j < (llmProcessWordsAux env tl (k + 1) rest).length := by
        have := h1
        simp only [llmProcessWordsAux, List.length_cons] at this
        omega
      have h2' : j < rest.length := by
        simp only [List.length_cons] at h2
        omega
      have := ih (k + 1) j h1' h2'
      simp only [llmProcessWordsAux, List.get_cons_succ]
      rw [show k + 1 + j = k + (j + 1) by omega] at this
      exact this

/-- C9: `process_words` returns exactly one result per input word, in
order: the i-th result's `word` field equals the i-th input word, and a
word whose `process_word` call fails contributes the empty word data (all
text fields empty, type OTHER) at its position. -/
theorem C9_process_words_shape (env : Nat → LLMCallEnv) (words : List String)
    (tl : String) :
    (llmProcessWords env words tl).length = words.length ∧
    (∀ (i : Nat) (h1 : i < (llmProcessWords env words tl).length)
       (h2 : i < words.length),
      ((llmProcessWords env words tl).get ⟨i, h1⟩).word = words.get ⟨i, h2⟩ ∧
      (llmProcessWord (env i) (words.get ⟨i, h2⟩) tl = none →
        (llmProcessWords env words tl).get ⟨i, h1⟩
          = createEmptyWordData (words.get ⟨i, h2⟩))) := by
  refine ⟨llmProcessWordsAux_length env tl words 0, ?_⟩
  intro i h1 h2
  have hget := llmProcessWordsAux_get env tl words 0 i h1 h2
  rw [show (0 : Nat) + i = i by omega] at hget
  have hget2 : (llmProcessWords env words tl).get ⟨i, h1⟩
      = (match llmProcessWord (env i) (words.get ⟨i, h2⟩) tl with
         | some r => r
         | none => createEmptyWordData (words.get ⟨i, h2⟩)) := hget
  constructor
  · rw [hget2]
    cases hp : llmProcessWord (env i) (words.get ⟨i, h2⟩) tl with
    | none => rfl
    | some r => exact llmProcessWord_word (env i) _ tl r hp
  · intro hnone
    rw [hget2, hnone]

/-- Witness for C9 on a two-word list with a failing first call. -/
theorem C9_process_words_shape_witness :
    ((llmProcessWords
        (fun i => if i = 0 then { content := none, translated := none }
                  else { content := some "Word translation: house", translated := none })
        ["Haus", "Auto"] "english").get
      ⟨0, by decide⟩).word = (["Haus", "Auto"] : List String).get ⟨0, by decide⟩ :=
  ((C9_process_words_shape
      (fun i => if i = 0 then { content := none, translated := none }
                else { content := some "Word translation: house", translated := none })
      ["Haus", "Auto"] "english").2 0 (by decide) (by decide)).1

/-! ## Theorems: processor statistics (C10) -/

/-- Each result produced by `process_word` carries the processed word. -/
theorem processorProcessWord_word (env : ProcStepEnv) (tl word : String) :
    (processorProcessWord env tl word).word = word := by
  unfold processorProcessWord
  cases llmProcessWord env.llm word tl with
  | none => rfl
  | some wd =>
    cases env.stepExc with
    | none => rfl
    | some e => rfl

/-- The accounting performed by the `for` loop of
`AnkiCardProcessor.process_words`, relative to the incoming statistics. -/
theorem processorLoop_spec (env : Nat → ProcStepEnv) (tl : String) :
    ∀ (ws : List String) (i : Nat) (stats : ProcessingStats),
    (processorLoop env tl i stats ws).2.total_words = stats.total_words ∧
    (processorLoop env tl i stats ws).1.length = ws.length ∧
    (processorLoop env tl i stats ws).2.processed_words
      = stats.processed_words
        + ((processorLoop env tl i stats ws).1.filter
            (fun r => r.success)).length ∧
    (processorLoop env tl i stats ws).2.failed_words
      = stats.failed_words
        + ((processorLoop env tl i stats ws).1.filter
            (fun r => !r.success)).length ∧
    (processorLoop env tl i stats ws).2.failed_word_list
      = stats.failed_word_list
        ++ ((processorLoop env tl i stats ws).1.filter
            (fun r => !r.success)).map (fun r => r.word) := by
  intro ws
  induction ws with
  | nil =>
    intro i stats
    simp [processorLoop]
  | cons w rest ih =>
    intro i stats
    cases hsucc : (processorProcessWord (env i) tl w).success with
    | true =>
      have hrec := ih (i + 1)
        { stats with processed_words := stats.processed_words + 1 }
      dsimp only at hrec
      simp only [processorLoop, hsucc, if_true]
      refine ⟨hrec.1, ?_, ?_, ?_, ?_⟩
      · simp [hrec.2.1]
      · rw [List.filter_cons_of_pos (by simp [hsucc])]
        simp only [List.length_cons]
        rw [hrec.2.2.1]
        omega
      · rw [List.filter_cons_of_neg (by simp [hsucc])]
        exact hrec.2.2.2.1
      · rw [List.filter_cons_of_neg (by simp [hsucc])]
        exact hrec.2.2.2.2
    | false =>
      have hrec := ih (i + 1)
        { stats with failed_words := stats.failed_words + 1,
                     failed_word_list := stats.failed_word_list ++ [w] }
      dsimp only at hrec
      simp only [processorLoop, hsucc, Bool.false_eq_true, if_false]
      refine ⟨hrec.1, ?_, ?_, ?_, ?_⟩
      · simp [hrec.2.1]
      · rw [List.filter_cons_of_neg (by simp [hsucc])]
        exact hrec.2.2.1
      · rw [List.filter_cons_of_pos (by simp [hsucc])]
        simp only [List.length_cons]
        rw [hrec.2.2.2.1]
        omega
      · rw [List.filter_cons_of_pos (by simp [hsucc])]
        simp only [List.map_cons]
        rw [hrec.2.2.2.2, processorProcessWord_word]
        simp [List.append_assoc]

/-- C10: after `process_words`, `total_words` is the input length,
`processed_words + failed_words = total_words`, and `failed_word_list`
has exactly one entry per unsuccessful result, in processing order. -/
theorem C10_stats_accounting (env : Nat → ProcStepEnv) (tl : String)
    (words : List String) :
    (processorProcessWords env tl words).2.total_words = words.length ∧
    (processorProcessWords env tl words).2.processed_words
        + (processorProcessWords env tl words).2.failed_words
      = (processorProcessWords env tl words).2.total_words ∧
    (processorProcessWords env tl words).2.failed_word_list.length
      = (processorProcessWords env tl words).2.failed_words ∧
    (processorProcessWords env tl words).2.failed_word_list
      = ((processorProcessWords env tl words).1.filter
          (fun r => !r.success)).map (fun r => r.word) := by
  have hdef : processorProcessWords env tl words
      = processorLoop env tl 0
          { total_words := words.length, processed_words := 0,
            failed_words := 0, failed_word_list := [] } words := rfl
  have h := processorLoop_spec env tl words 0
    { total_words := words.length, processed_words := 0, failed_words := 0,
      failed_word_list := [] }
  dsimp only at h
  rw [hdef]
  have hsplit : (((processorLoop env tl 0
        { total_words := words.length, processed_words := 0,
          failed_words := 0, failed_word_list := [] } words).1.filter
        (fun r => r.success)).length)
      + (((processorLoop env tl 0
          { total_words := words.length, processed_words := 0,
            failed_words := 0, failed_word_list := [] } words).1.filter
          (fun r => !r.success)).length)
      = words.length := by
    rw [← List.length_append, (List.filter_append_perm _ _).length_eq]
    exact h.2.1
  refine ⟨h.1, ?_, ?_, ?_⟩
  · rw [h.1, h.2.2.1, h.2.2.2.1]
    omega
  · rw [h.2.2.2.2, h.2.2.2.1]
    simp
  · simpa using h.2.2.2.2
